import Mathlib

/-
Verification development for the TM-Fleet AIS ingestion pipeline.

The definitions below are a shallow embedding of the Python sources:
  src/utils/nmea_parser.py            (NMEAParser)
  src/utils/multipart_message_buffer.py (MultipartMessageBuffer)
  src/utils/ais_message_processor.py  (AISMessageProcessor)
  src/services/ais_service.py         (AISService line processing and cleanup)

Python dictionaries are modelled as association lists with replace-or-append
insertion (matching dict update semantics and iteration-irrelevant key sets),
Python `datetime` timestamps as integers (whole seconds, which the claims' comparisons never distinguish from the float seconds of the code), Python numeric values as
`Int`/`Rat`, and heterogeneous dict values as an explicit value type.
-/

/-- Association-list lookup: the value stored at the first occurrence of a key,
modelling Python `dict[k]` / `dict.get(k)`. -/
def alookup {α β : Type} [DecidableEq α] (k : α) : List (α × β) → Option β
  | [] => none
  | (k', v) :: rest => if k' = k then some v else alookup k rest

/-- Association-list insert with replace-or-append semantics, modelling Python
`dict[k] = v`: an existing binding for the key is overwritten in place,
otherwise the binding is appended. -/
def ainsert {α β : Type} [DecidableEq α] (k : α) (v : β) : List (α × β) → List (α × β)
  | [] => [(k, v)]
  | (k', v') :: rest => if k' = k then (k, v) :: rest else (k', v') :: ainsert k v rest

/-- Association-list erase of the first binding of a key, modelling Python
`del dict[k]` on a dict with unique keys. -/
def aerase {α β : Type} [DecidableEq α] (k : α) : List (α × β) → List (α × β)
  | [] => []
  | (k', v') :: rest => if k' = k then rest else (k', v') :: aerase k rest

section AssocLemmas

variable {α β : Type} [DecidableEq α]

theorem alookup_eq_none_iff {k : α} {l : List (α × β)} :
    alookup k l = none ↔ ∀ p ∈ l, p.1 ≠ k := by
  induction l with
  | nil => simp [alookup]
  | cons hd tl ih =>
    by_cases h : hd.1 = k
    · simp [alookup, h]
    · simp only [alookup, h, if_neg h, List.mem_cons]
      constructor
      · rintro hl p (rfl | hp)
        · exact h
        · exact ih.mp hl p hp
      · intro hall
        exact ih.mpr fun p hp => hall p (Or.inr hp)

theorem alookup_some_mem {k : α} {v : β} {l : List (α × β)}
    (h : alookup k l = some v) : (k, v) ∈ l := by
  induction l with
  | nil => simp [alookup] at h
  | cons hd tl ih =>
    by_cases hk : hd.1 = k
    · simp only [alookup, if_pos hk] at h
      cases h
      subst hk
      exact List.mem_cons_self _ _
    · simp only [alookup, if_neg hk] at h
      exact List.mem_cons_of_mem _ (ih h)

theorem alookup_append {k : α} {l₁ l₂ : List (α × β)} :
    alookup k (l₁ ++ l₂) =
      match alookup k l₁ with
      | some v => some v
      | none => alookup k l₂ := by
  induction l₁ with
  | nil => simp [alookup]
  | cons hd tl ih =>
    by_cases h : hd.1 = k <;> simp [alookup, h, ih]

theorem ainsert_of_forall_ne {k : α} {v : β} {l : List (α × β)}
    (h : ∀ p ∈ l, p.1 ≠ k) : ainsert k v l = l ++ [(k, v)] := by
  induction l with
  | nil => rfl
  | cons hd tl ih =>
    have hhd : hd.1 ≠ k := h hd (List.mem_cons_self _ _)
    simp only [ainsert, if_neg hhd, List.cons_append, List.cons.injEq, true_and]
    exact ih fun p hp => h p (List.mem_cons_of_mem _ hp)

theorem ainsert_append_last {k : α} {v v' : β} {l : List (α × β)}
    (h : ∀ p ∈ l, p.1 ≠ k) : ainsert k v (l ++ [(k, v')]) = l ++ [(k, v)] := by
  induction l with
  | nil => simp [ainsert]
  | cons hd tl ih =>
    have hhd : hd.1 ≠ k := h hd (List.mem_cons_self _ _)
    simp only [List.cons_append, ainsert, if_neg hhd, List.cons.injEq, true_and]
    exact ih fun p hp => h p (List.mem_cons_of_mem _ hp)

theorem aerase_append_last {k : α} {v : β} {l : List (α × β)}
    (h : ∀ p ∈ l, p.1 ≠ k) : aerase k (l ++ [(k, v)]) = l := by
  induction l with
  | nil => simp [aerase]
  | cons hd tl ih =>
    have hhd : hd.1 ≠ k := h hd (List.mem_cons_self _ _)
    simp only [List.cons_append, aerase, if_neg hhd, List.cons.injEq, true_and]
    exact ih fun p hp => h p (List.mem_cons_of_mem _ hp)

theorem alookup_ainsert_self {k : α} {v : β} {l : List (α × β)} :
    alookup k (ainsert k v l) = some v := by
  induction l with
  | nil => simp [ainsert, alookup]
  | cons hd tl ih =>
    by_cases h : hd.1 = k <;> simp [ainsert, alookup, h, ih]

theorem mem_ainsert {p : α × β} {k : α} {v : β} {l : List (α × β)}
    (h : p ∈ ainsert k v l) : p = (k, v) ∨ p ∈ l := by
  induction l with
  | nil => simpa [ainsert] using h
  | cons hd tl ih =>
    by_cases hk : hd.1 = k
    · simp only [ainsert, if_pos hk, List.mem_cons] at h
      rcases h with h | h
      · exact Or.inl h
      · exact Or.inr (List.mem_cons_of_mem _ h)
    · simp only [ainsert, if_neg hk, List.mem_cons] at h
      rcases h with h | h
      · exact Or.inr (h ▸ List.mem_cons_self _ _)
      · rcases ih h with h' | h'
        · exact Or.inl h'
        · exact Or.inr (List.mem_cons_of_mem _ h')

theorem mem_keys_ainsert {a k : α} {v : β} {l : List (α × β)}
    (h : a ∈ (ainsert k v l).map Prod.fst) : a = k ∨ a ∈ l.map Prod.fst := by
  rcases List.mem_map.mp h with ⟨p, hp, rfl⟩
  rcases mem_ainsert hp with h' | h'
  · left
    rw [h']
  · right
    exact List.mem_map_of_mem _ h'

theorem keys_nodup_ainsert {k : α} {v : β} {l : List (α × β)}
    (h : (l.map Prod.fst).Nodup) : ((ainsert k v l).map Prod.fst).Nodup := by
  induction l with
  | nil => simp [ainsert]
  | cons hd tl ih =>
    obtain ⟨a, b⟩ := hd
    rw [List.map_cons, List.nodup_cons] at h
    by_cases hk : a = k
    · subst hk
      have heq : ainsert a v ((a, b) :: tl) = (a, v) :: tl := by simp [ainsert]
      rw [heq, List.map_cons, List.nodup_cons]
      exact ⟨h.1, h.2⟩
    · have htl := ih h.2
      simp only [ainsert, if_neg hk, List.map_cons, List.nodup_cons]
      refine ⟨fun hcontra => ?_, htl⟩
      rcases mem_keys_ainsert hcontra with h' | h'
      · exact hk h'
      · exact h.1 h'

theorem aerase_sublist (k : α) (l : List (α × β)) : (aerase k l).Sublist l := by
  induction l with
  | nil => simp [aerase]
  | cons hd tl ih =>
    obtain ⟨a, b⟩ := hd
    by_cases h : a = k
    · simp only [aerase, if_pos h]
      exact List.sublist_cons_self (a, b) tl
    · simp only [aerase, if_neg h]
      exact ih.cons₂ (a, b)

end AssocLemmas

/-- Splits a character list at every comma, modelling Python `str.split(',')`
(n separators always yield n+1 parts, empties included). -/
def splitComma : List Char → List (List Char)
  | [] => [[]]
  | c :: rest =>
    let r := splitComma rest
    if c = ',' then [] :: r
    else
      match r with
      | [] => [[c]]
      | h :: t => (c :: h) :: t

/-- Drops the characters satisfying a predicate from both ends of a list,
modelling Python `str.strip(chars)`. -/
def stripEdges (p : Char → Bool) (cs : List Char) : List Char :=
  ((cs.dropWhile p).reverse.dropWhile p).reverse

/-- Python `str.strip()`: surrounding whitespace removed. -/
def pyStripWs (s : String) : String :=
  String.mk (stripEdges (fun c => c.isWhitespace) s.toList)

/-- Digit-string to number, the core of Python `int()`: every character must be
a decimal digit and at least one digit must be present. -/
def digitsToNat : List Char → Option Nat
  | [] => none
  | cs =>
    if cs.all (fun c => c.isDigit) then
      some (cs.foldl (fun acc c => acc * 10 + (c.toNat - '0'.toNat)) 0)
    else none

/-- Python `int(s)` on the decimal formats NMEA fields use: surrounding
whitespace stripped, an optional sign, then decimal digits; anything else
raises `ValueError`, modelled as `none`. -/
def pyInt (s : String) : Option Int :=
  match stripEdges (fun c => c.isWhitespace) s.toList with
  | '-' :: rest => (digitsToNat rest).map (fun n => -(n : Int))
  | '+' :: rest => (digitsToNat rest).map (fun n => (n : Int))
  | cs => (digitsToNat cs).map (fun n => (n : Int))

/-- Fragment metadata extracted from an NMEA line, the dict returned by
`NMEAParser.parse_nmea_fields`. -/
structure NmeaFields where
  total_fragments : Int
  fragment_number : Int
  message_id : Option String
  channel : String
deriving DecidableEq, Repr

/-- Core of `NMEAParser.parse_nmea_fields` on the already-split field list:
fewer than 6 fields or a failing `int()` conversion yield `none`. -/
def parseNmeaCore : List String → Option NmeaFields
  | _ :: p1 :: p2 :: p3 :: p4 :: _ :: _ =>
    match pyInt p1, pyInt p2 with
    | some t, some n =>
      some { total_fragments := t, fragment_number := n
             message_id := if p3 = "" then none else some p3
             channel := p4 }
    | _, _ => none
  | _ => none

/-- `NMEAParser.parse_nmea_fields` (src/utils/nmea_parser.py lines 4-20):
split on commas, require at least 6 fields, convert fields 1 and 2 with
`int()`, treat an empty field 3 as an absent message id, take field 4 as the
channel. -/
def parse_nmea_fields (line : String) : Option NmeaFields :=
  parseNmeaCore ((splitComma line.toList).map String.mk)

/-- `NMEAParser.is_ais_message` (src/utils/nmea_parser.py lines 22-26):
the stripped line is non-empty and starts with `!AIVDM` or `!AIVDO`. -/
def is_ais_message (line : String) : Bool :=
  let l := pyStripWs line
  l ≠ "" && (List.isPrefixOf "!AIVDM".toList l.toList
             || List.isPrefixOf "!AIVDO".toList l.toList)

example : parse_nmea_fields "!AIVDM,2,1,3,A,xxx,0*1B" =
    some { total_fragments := 2, fragment_number := 1
           message_id := some "3", channel := "A" } := by decide

example : parse_nmea_fields "!AIVDM,bad" = none := by decide

example : parse_nmea_fields "!AIVDM,0,0,3,A,x" =
    some { total_fragments := 0, fragment_number := 0
           message_id := some "3", channel := "A" } := by decide

example : is_ais_message "!AIVDM,2,1,3,A,xxx,0*1B" = true := by decide

example : is_ais_message "hello" = false := by decide

/-- A pending multipart entry of `MultipartMessageBuffer.buffer`
(src/utils/multipart_message_buffer.py lines 14-19): the fragment dict
(fragment number to raw line), the total recorded at creation, and the
creation timestamp. -/
structure Pending where
  fragments : List (Int × String)
  total : Int
  timestamp : Int
deriving DecidableEq, Repr

/-- The buffer dict of `MultipartMessageBuffer`, keyed by the string buffer
key. -/
abbrev Buffer := List (String × Pending)

/-- The buffer key computed in `MultipartMessageBuffer.add_fragment` line 12:
`f"{message_id}_{channel}"` when the message id is truthy, else
`f"no_id_{channel}_{total_fragments}"`. -/
def buffer_key (message_id : Option String) (channel : String)
    (total_fragments : Int) : String :=
  match message_id with
  | some mid =>
    if mid = "" then "no_id_" ++ channel ++ "_" ++ toString total_fragments
    else mid ++ "_" ++ channel
  | none => "no_id_" ++ channel ++ "_" ++ toString total_fragments

/-- The reassembly loop of `add_fragment` lines 30-36: walk the indices
`i = start, start+1, ...` for `count` steps, collecting the stored line at
each index and failing on the first missing index. -/
def build_sorted (fragments : List (Int × String)) : Int → Nat → Option (List String)
  | _, 0 => some []
  | i, k + 1 =>
    match alookup i fragments with
    | none => none
    | some line => (build_sorted fragments (i + 1) k).map (fun rest => line :: rest)

/-- `MultipartMessageBuffer.add_fragment` (lines 9-46): create the pending
entry if the key is new, store the fragment (last write wins), and if the
stored fragment count equals the `total_fragments` argument of this call,
reassemble indices `1..total_fragments`; on success the key is deleted and
the ordered lines are returned, on a missing index the entry is kept and
`none` is returned. -/
def add_fragment (buf : Buffer) (line : String)
    (total_fragments fragment_number : Int) (message_id : Option String)
    (channel : String) (now : Int) : Buffer × Option (List String) :=
  let key := buffer_key message_id channel total_fragments
  let entry :=
    (alookup key buf).getD { fragments := [], total := total_fragments, timestamp := now }
  let entry1 := { entry with fragments := ainsert fragment_number line entry.fragments }
  let buf1 := ainsert key entry1 buf
  if (entry1.fragments.length : Int) = total_fragments then
    match build_sorted entry1.fragments 1 total_fragments.toNat with
    | some sorted_fragments => (aerase key buf1, some sorted_fragments)
    | none => (buf1, none)
  else (buf1, none)

/-- `MultipartMessageBuffer.cleanup_old_fragments` (lines 48-61): delete every
entry whose age in seconds strictly exceeds `max_age_seconds` (default 60). -/
def cleanup_old_fragments (buf : Buffer) (now : Int)
    (max_age_seconds : Int := 60) : Buffer :=
  buf.filter (fun kv => !(now - kv.2.timestamp > max_age_seconds))

/-- One externally visible operation on a `MultipartMessageBuffer`: an
`add_fragment` call or a `cleanup_old_fragments` call. -/
inductive BufOp where
  | add (line : String) (total_fragments fragment_number : Int)
        (message_id : Option String) (channel : String) (now : Int)
  | evict (now : Int) (max_age_seconds : Int)

/-- The buffer state produced by one operation. -/
def applyOp (buf : Buffer) : BufOp → Buffer
  | .add line t n mid ch now => (add_fragment buf line t n mid ch now).1
  | .evict now maxAge => cleanup_old_fragments buf now maxAge

/-- The buffer state reached from the initial empty buffer by a sequence of
operations. -/
def runOps (ops : List BufOp) : Buffer :=
  ops.foldl applyOp []

/-- Feeds a list of fragment indices one by one through `add_fragment`, with
line `l i`, a fixed total, message id and channel; returns the final buffer
and the per-call results. -/
def feed_all (l : Nat → String) (total : Nat) (message_id : Option String)
    (channel : String) (now : Int) : Buffer → List Nat → Buffer × List (Option (List String))
  | buf, [] => (buf, [])
  | buf, i :: rest =>
    let step := add_fragment buf (l i) (total : Int) (i : Int) message_id channel now
    let next := feed_all l total message_id channel now step.1 rest
    (next.1, step.2 :: next.2)

example :
    (add_fragment [] "f1" 2 1 (some "3") "A" 0).2 = none ∧
    (add_fragment (add_fragment [] "f1" 2 1 (some "3") "A" 0).1
      "f2" 2 2 (some "3") "A" 1) = ([], some ["f1", "f2"]) := by decide

example :
    runOps [.add "l1" 2 1 (some "3") "A" 0, .add "l2" 5 2 (some "3") "A" 0,
            .add "l3" 5 3 (some "3") "A" 0] =
      [("3_A", { fragments := [(1, "l1"), (2, "l2"), (3, "l3")], total := 2
                 timestamp := 0 })] := by decide

/-- A Python value stored in a ship-detail dict: a string, an integer, or a
float (modelled as a rational). -/
inductive PyVal where
  | s (v : String)
  | i (v : Int)
  | r (v : Rat)
deriving DecidableEq, Repr

/-- Python truthiness of a `PyVal`: non-empty strings and non-zero numbers. -/
def pyTruthy : PyVal → Bool
  | .s v => v ≠ ""
  | .i v => v ≠ 0
  | .r v => v ≠ 0

/-- The string cleanup of `AISMessageProcessor._process_static_message` line
113: `value.strip('@').strip()` — strip the `@` padding from both ends, then
surrounding whitespace. -/
def stripAtWs (s : String) : String :=
  String.mk (stripEdges (fun c => c.isWhitespace)
    (stripEdges (fun c => c = '@') s.toList))

/-- Line 112-113 of the static loop: string values are stripped, other values
pass through. -/
def cleanValue : PyVal → PyVal
  | .s v => .s (stripAtWs v)
  | v => v

/-- The ship-detail dict (`ship_details[mmsi]` / `ship_info` in
src/utils/ais_message_processor.py): required keys plus every optional key
that any message type may add, absent keys being `none`. -/
structure ShipInfo where
  mmsi : String
  msg_type : Int
  timestamp : Int
  latitude : Option Rat := none
  longitude : Option Rat := none
  speed : Option PyVal := none
  course : Option PyVal := none
  heading : Option PyVal := none
  nav_status : Option PyVal := none
  turn_rate : Option PyVal := none
  position_accuracy : Option PyVal := none
  ship_name : Option PyVal := none
  ship_type : Option PyVal := none
  callsign : Option PyVal := none
  imo : Option PyVal := none
  destination : Option PyVal := none
  eta_month : Option PyVal := none
  eta_day : Option PyVal := none
  eta_hour : Option PyVal := none
  eta_minute : Option PyVal := none
  draught : Option PyVal := none
  to_bow : Option PyVal := none
  to_stern : Option PyVal := none
  to_port : Option PyVal := none
  to_starboard : Option PyVal := none
deriving DecidableEq, Repr

/-- A decoded position-type AIS message as `_process_position_message` reads
it: `lat`/`lon` attributes (possibly `None`) and the optional attributes of
lines 51-58, where `none` covers both a missing attribute and a `None`
value. -/
structure PositionMessage where
  mmsi : String
  msg_type : Int
  lat : Option Rat
  lon : Option Rat
  speed : Option PyVal := none
  course : Option PyVal := none
  heading : Option PyVal := none
  status : Option PyVal := none
  turn : Option PyVal := none
  accuracy : Option PyVal := none
deriving DecidableEq, Repr

/-- A decoded static-data AIS message (types 5 and 24) as
`_process_static_message` reads it: the attributes of lines 90-105, where
`none` covers both a missing attribute and a `None` value. -/
structure StaticMessage where
  mmsi : String
  msg_type : Int
  shipname : Option PyVal := none
  ship_type : Option PyVal := none
  callsign : Option PyVal := none
  imo : Option PyVal := none
  destination : Option PyVal := none
  eta_month : Option PyVal := none
  eta_day : Option PyVal := none
  eta_hour : Option PyVal := none
  eta_minute : Option PyVal := none
  draught : Option PyVal := none
  to_bow : Option PyVal := none
  to_stern : Option PyVal := none
  to_port : Option PyVal := none
  to_starboard : Option PyVal := none
deriving DecidableEq, Repr

/-- The state touched by `AISMessageProcessor`: the live lat/lon map
(`self.ships`), the detail map (`self.ship_details`), and the sequences of
`AISDatabase.save_position` / `save_ship_static_data` calls issued so far
(modelling the Store collaborator's call log). -/
structure ProcState where
  ships : List (String × (Rat × Rat)) := []
  ship_details : List (String × ShipInfo) := []
  saved_positions : List (String × ShipInfo) := []
  saved_static : List (String × ShipInfo) := []
deriving DecidableEq, Repr

/-- `AISMessageProcessor._process_position_message` (lines 30-78): when both
coordinates are present and neither sentinel (91.0 / 181.0) occurs, overwrite
the live map entry, build a fresh detail dict from the message (lines 42-64),
store it under the mmsi (line 66), and save it to the database; otherwise
only log. -/
def process_position_message (st : ProcState) (msg : PositionMessage)
    (now : Int) : ProcState :=
  match msg.lat, msg.lon with
  | some lat, some lon =>
    if lat ≠ 91 ∧ lon ≠ 181 then
      let ship_info : ShipInfo :=
        { mmsi := msg.mmsi, msg_type := msg.msg_type, timestamp := now
          latitude := some lat, longitude := some lon
          speed := msg.speed, course := msg.course, heading := msg.heading
          nav_status := msg.status, turn_rate := msg.turn
          position_accuracy := msg.accuracy }
      { st with
          ships := ainsert msg.mmsi (lat, lon) st.ships
          ship_details := ainsert msg.mmsi ship_info st.ship_details
          saved_positions := st.saved_positions ++ [(msg.mmsi, ship_info)] }
    else st
  | _, _ => st

/-- One iteration of the static-field loop of `_process_static_message`
(lines 107-115): absent or `None` values change nothing; otherwise string
values are stripped of `@` padding and whitespace, and the (cleaned) value
overwrites the field only when it is truthy. -/
def mergeStaticField (existing : Option PyVal) : Option PyVal → Option PyVal
  | none => existing
  | some v =>
    let v1 := cleanValue v
    if pyTruthy v1 then some v1 else existing

/-- `AISMessageProcessor._process_static_message` (lines 80-128): take the
existing detail dict for the mmsi (or a fresh `{mmsi, msg_type, timestamp}`
dict), run the static-field loop over the fourteen static attributes, store
the result, and save it to the database. -/
def process_static_message (st : ProcState) (msg : StaticMessage)
    (now : Int) : ProcState :=
  let info0 := (alookup msg.mmsi st.ship_details).getD
    { mmsi := msg.mmsi, msg_type := msg.msg_type, timestamp := now }
  let info :=
    { info0 with
        ship_name := mergeStaticField info0.ship_name msg.shipname
        ship_type := mergeStaticField info0.ship_type msg.ship_type
        callsign := mergeStaticField info0.callsign msg.callsign
        imo := mergeStaticField info0.imo msg.imo
        destination := mergeStaticField info0.destination msg.destination
        eta_month := mergeStaticField info0.eta_month msg.eta_month
        eta_day := mergeStaticField info0.eta_day msg.eta_day
        eta_hour := mergeStaticField info0.eta_hour msg.eta_hour
        eta_minute := mergeStaticField info0.eta_minute msg.eta_minute
        draught := mergeStaticField info0.draught msg.draught
        to_bow := mergeStaticField info0.to_bow msg.to_bow
        to_stern := mergeStaticField info0.to_stern msg.to_stern
        to_port := mergeStaticField info0.to_port msg.to_port
        to_starboard := mergeStaticField info0.to_starboard msg.to_starboard }
  { st with
      ship_details := ainsert msg.mmsi info st.ship_details
      saved_static := st.saved_static ++ [(msg.mmsi, info)] }

/-- The cleanup-relevant configuration of `AISService`
(src/services/ais_service.py), with the code's defaults:
`CLEANUP_INTERVAL_MESSAGES` 1000, `AUTO_CLEANUP_ENABLED` true,
`AGE_CLEANUP_INTERVAL_HOURS` 1, `DUPLICATE_CLEANUP_INTERVAL_HOURS` 6. -/
structure Config where
  cleanup_interval_messages : Nat := 1000
  auto_cleanup_enabled : Bool := true
  age_cleanup_interval_hours : Int := 1
  duplicate_cleanup_interval_hours : Int := 6
deriving DecidableEq, Repr

/-- The per-service mutable state of `AISService` relevant to line counting
and cleanup: the multipart buffer, `self.message_count`, the last-cleanup
times, and the cleanup counters of `self.cleanup_stats` (which count the
Store-layer retention sweeps performed). -/
structure IngestState where
  buffer : Buffer := []
  message_count : Nat := 0
  last_age_cleanup_time : Option Int := none
  last_duplicate_cleanup_time : Option Int := none
  total_age_cleanups : Nat := 0
  total_duplicate_cleanups : Nat := 0
deriving DecidableEq, Repr

/-- The time-interval guard of `AISService._trigger_automatic_cleanup` (lines
182-183 and 188-190): a sweep is due when it never ran or when at least
`interval_hours * 3600` seconds elapsed since the last one. -/
def cleanup_due (last : Option Int) (now : Int) (interval_hours : Int) : Bool :=
  match last with
  | none => true
  | some t => now - t ≥ interval_hours * 3600

/-- `AISService._trigger_automatic_cleanup` (lines 169-192): when automatic
cleanup is enabled, run the age-based Store sweep if due and record its time,
then run the duplicate Store sweep if due and record its time. The sweeps
themselves are Store-layer calls, modelled by incrementing their counters. -/
def trigger_automatic_cleanup (cfg : Config) (st : IngestState)
    (now : Int) : IngestState :=
  if cfg.auto_cleanup_enabled then
    let st1 :=
      if cleanup_due st.last_age_cleanup_time now cfg.age_cleanup_interval_hours then
        { st with total_age_cleanups := st.total_age_cleanups + 1
                  last_age_cleanup_time := some now }
      else st
    if cleanup_due st1.last_duplicate_cleanup_time now
        cfg.duplicate_cleanup_interval_hours then
      { st1 with total_duplicate_cleanups := st1.total_duplicate_cleanups + 1
                 last_duplicate_cleanup_time := some now }
    else st1
  else st

/-- `AISService._update_message_count` (lines 159-167): increment
`self.message_count` and, when the new count is a multiple of the cleanup
interval, evict stale fragments from the multipart buffer (default age limit
60 seconds). -/
def update_message_count (cfg : Config) (st : IngestState) (now : Int) : IngestState :=
  let st1 := { st with message_count := st.message_count + 1 }
  if st1.message_count % cfg.cleanup_interval_messages = 0 then
    { st1 with buffer := cleanup_old_fragments st1.buffer now }
  else st1

/-- `AISService._decode_and_process` (lines 145-157) projected onto the
service state: the external pyais decode and the vessel-state update are
modelled by the oracle `decodeOk` (decode succeeded and yielded a truthy
message); on success the time-based cleanup trigger runs, and a decode
failure is caught and changes nothing here. -/
def decode_and_process (cfg : Config) (decodeOk : List String → Bool)
    (st : IngestState) (message_lines : List String) (now : Int) : IngestState :=
  if decodeOk message_lines then trigger_automatic_cleanup cfg st now else st

/-- `AISService._process_ais_line` (lines 107-143): strip the line, drop it if
it is not an AIS sentence or its NMEA fields do not parse, otherwise decode
immediately (single-part) or run it through the multipart buffer, decoding a
truthy completed fragment list; finally update the message count. -/
def process_ais_line (cfg : Config) (decodeOk : List String → Bool)
    (st : IngestState) (nmea_line : String) (now : Int) : IngestState :=
  let line := pyStripWs nmea_line
  if is_ais_message line then
    match parse_nmea_fields line with
    | none => st
    | some f =>
      let st1 :=
        if f.total_fragments = 1 then
          decode_and_process cfg decodeOk st [line] now
        else
          let step := add_fragment st.buffer line f.total_fragments
            f.fragment_number f.message_id f.channel now
          let st2 := { st with buffer := step.1 }
          match step.2 with
          | some fs =>
            if fs ≠ [] then decode_and_process cfg decodeOk st2 fs now else st2
          | none => st2
      update_message_count cfg st1 now
  else st

/-- Claim C7: a decoded message dispatched as a position update whose latitude
is absent, whose longitude is absent, or whose latitude is 91.0 or longitude
is 181.0 changes nothing: the live lat/lon map and the detail map are left
exactly as they were and no Store.savePosition call is issued. -/
theorem claim7_theorem (st : ProcState) (msg : PositionMessage) (now : Int)
    (h : msg.lat = none ∨ msg.lon = none ∨ msg.lat = some 91 ∨ msg.lon = some 181) :
    process_position_message st msg now = st := by
  unfold process_position_message
  rcases hlat : msg.lat with _ | lat <;> rcases hlon : msg.lon with _ | lon <;>
    simp_all
  rcases h with h | h <;> subst h <;> simp

theorem claim7_witness :
    process_position_message
      { ships := [("9", (1, 2))] }
      { mmsi := "9", msg_type := 1, lat := some 91, lon := some 10 } 0 =
      { ships := [("9", (1, 2))] } :=
  claim7_theorem { ships := [("9", (1, 2))] }
    { mmsi := "9", msg_type := 1, lat := some 91, lon := some 10 } 0
    (Or.inr (Or.inr (Or.inl rfl)))

/-- The prior processor state of the C1 counterexample: mmsi 123 already has a
detail record carrying static data (a ship name). -/
def stClaim1 : ProcState :=
  { ship_details := [("123", { mmsi := "123", msg_type := 5, timestamp := 0
                               ship_name := some (.s "MAERSK") })] }

/-- The valid position update of the C1 counterexample. -/
def msgClaim1 : PositionMessage :=
  { mmsi := "123", msg_type := 1, lat := some 10, lon := some 20 }

/-- Claim C1 as stated is false: after a valid position update the existing
static-data field shipName is not left unchanged — the detail record held
shipName "MAERSK" before and holds no shipName afterwards, because the code
assigns a freshly built record instead of merging. -/
theorem claim1_counterexample :
    (alookup "123" stClaim1.ship_details).map ShipInfo.ship_name =
      some (some (.s "MAERSK"))
    ∧ (alookup "123" (process_position_message stClaim1 msgClaim1 5).ship_details).map
        ShipInfo.ship_name = some none := by decide

/-- Claim C1 amended: for every mmsi that already has a detail record,
processing a valid position update replaces the detail record with a freshly
built record containing mmsi, msg_type, timestamp = now, latitude, longitude
and the present optional position fields; static-data fields of the previous
record are not carried over (all absent in the new record) — a full replace,
not a merge. The live map is overwritten and one Store.savePosition call is
issued with the new record. -/
theorem claim1_theorem (st : ProcState) (msg : PositionMessage) (now : Int)
    (lat lon : Rat) (prev : ShipInfo)
    (hlat : msg.lat = some lat) (hlon : msg.lon = some lon)
    (h91 : lat ≠ 91) (h181 : lon ≠ 181)
    (_hprev : alookup msg.mmsi st.ship_details = some prev) :
    ∃ r : ShipInfo,
      alookup msg.mmsi (process_position_message st msg now).ship_details = some r
      ∧ r.mmsi = msg.mmsi ∧ r.msg_type = msg.msg_type ∧ r.timestamp = now
      ∧ r.latitude = some lat ∧ r.longitude = some lon
      ∧ r.speed = msg.speed ∧ r.course = msg.course ∧ r.heading = msg.heading
      ∧ r.nav_status = msg.status ∧ r.turn_rate = msg.turn
      ∧ r.position_accuracy = msg.accuracy
      ∧ r.ship_name = none ∧ r.ship_type = none ∧ r.callsign = none
      ∧ r.imo = none ∧ r.destination = none ∧ r.draught = none
      ∧ (process_position_message st msg now).ships = ainsert msg.mmsi (lat, lon) st.ships
      ∧ (process_position_message st msg now).saved_positions =
          st.saved_positions ++ [(msg.mmsi, r)] := by
  have hcond : lat ≠ 91 ∧ lon ≠ 181 := ⟨h91, h181⟩
  unfold process_position_message
  rw [hlat, hlon]
  simp only [if_pos hcond]
  refine ⟨_, alookup_ainsert_self, ?_⟩
  simp

theorem claim1_witness :
    ∃ r : ShipInfo,
      alookup "123" (process_position_message stClaim1 msgClaim1 5).ship_details = some r
      ∧ r.mmsi = "123" ∧ r.msg_type = 1 ∧ r.timestamp = 5
      ∧ r.latitude = some 10 ∧ r.longitude = some 20
      ∧ r.speed = none ∧ r.course = none ∧ r.heading = none
      ∧ r.nav_status = none ∧ r.turn_rate = none ∧ r.position_accuracy = none
      ∧ r.ship_name = none ∧ r.ship_type = none ∧ r.callsign = none
      ∧ r.imo = none ∧ r.destination = none ∧ r.draught = none
      ∧ (process_position_message stClaim1 msgClaim1 5).ships = ainsert "123" (10, 20) stClaim1.ships
      ∧ (process_position_message stClaim1 msgClaim1 5).saved_positions =
          stClaim1.saved_positions ++ [("123", r)] :=
  claim1_theorem stClaim1 msgClaim1 5 10 20
    { mmsi := "123", msg_type := 5, timestamp := 0, ship_name := some (.s "MAERSK") }
    rfl rfl (by decide) (by decide) (by decide)

/-- The prior processor state of the C4 counterexample: mmsi 9 already has a
detail record with a non-zero shipType. -/
def stClaim4 : ProcState :=
  { ship_details := [("9", { mmsi := "9", msg_type := 5, timestamp := 0
                             ship_type := some (.i 70) })] }

/-- The static message of the C4 counterexample: shipType present, non-null
and non-string, with value 0. -/
def msgClaim4 : StaticMessage :=
  { mmsi := "9", msg_type := 24, ship_type := some (.i 0) }

/-- Claim C4 as stated is false: shipType = 0 is non-string and non-null, so
the claim says it always overwrites the detail field, but the code keeps the
existing value 70 because its truthiness test (`if value:`) rejects zero. -/
theorem claim4_counterexample :
    msgClaim4.ship_type = some (.i 0)
    ∧ (alookup "9" (process_static_message stClaim4 msgClaim4 3).ship_details).map
        ShipInfo.ship_type = some (some (.i 70)) := by decide

/-- Claim C4 amended: for every static-data message and static field present
and non-null: a string value is trimmed of `@` padding and whitespace and
overwrites the detail field exactly when the trimmed result is non-empty; a
non-string value overwrites exactly when it is truthy (non-zero) — a zero
numeric value, like an absent, null or empty-after-trimming value, never
erases an existing value. Each detail field of the stored record is the
merge of the existing field with the corresponding message field. -/
theorem claim4_theorem :
    (∀ (st : ProcState) (msg : StaticMessage) (now : Int) (info0 : ShipInfo),
      alookup msg.mmsi st.ship_details = some info0 →
      alookup msg.mmsi (process_static_message st msg now).ship_details =
        some { info0 with
                 ship_name := mergeStaticField info0.ship_name msg.shipname
                 ship_type := mergeStaticField info0.ship_type msg.ship_type
                 callsign := mergeStaticField info0.callsign msg.callsign
                 imo := mergeStaticField info0.imo msg.imo
                 destination := mergeStaticField info0.destination msg.destination
                 eta_month := mergeStaticField info0.eta_month msg.eta_month
                 eta_day := mergeStaticField info0.eta_day msg.eta_day
                 eta_hour := mergeStaticField info0.eta_hour msg.eta_hour
                 eta_minute := mergeStaticField info0.eta_minute msg.eta_minute
                 draught := mergeStaticField info0.draught msg.draught
                 to_bow := mergeStaticField info0.to_bow msg.to_bow
                 to_stern := mergeStaticField info0.to_stern msg.to_stern
                 to_port := mergeStaticField info0.to_port msg.to_port
                 to_starboard := mergeStaticField info0.to_starboard msg.to_starboard })
  ∧ (∀ (ex : Option PyVal) (s : String), stripAtWs s ≠ "" →
      mergeStaticField ex (some (.s s)) = some (.s (stripAtWs s)))
  ∧ (∀ (ex : Option PyVal) (s : String), stripAtWs s = "" →
      mergeStaticField ex (some (.s s)) = ex)
  ∧ (∀ ex : Option PyVal, mergeStaticField ex none = ex)
  ∧ (∀ (ex : Option PyVal) (n : Int), n ≠ 0 → mergeStaticField ex (some (.i n)) = some (.i n))
  ∧ (∀ ex : Option PyVal, mergeStaticField ex (some (.i 0)) = ex)
  ∧ (∀ (ex : Option PyVal) (q : Rat), q ≠ 0 → mergeStaticField ex (some (.r q)) = some (.r q))
  ∧ (∀ ex : Option PyVal, mergeStaticField ex (some (.r 0)) = ex) := by
  refine ⟨?_, ?_, ?_, ?_, ?_, ?_, ?_, ?_⟩
  · intro st msg now info0 h
    unfold process_static_message
    rw [h]
    exact alookup_ainsert_self
  · intro ex s h
    simp [mergeStaticField, cleanValue, pyTruthy, h]
  · intro ex s h
    simp [mergeStaticField, cleanValue, pyTruthy, h]
  · intro ex
    rfl
  · intro ex n h
    simp [mergeStaticField, cleanValue, pyTruthy, h]
  · intro ex
    simp [mergeStaticField, cleanValue, pyTruthy]
  · intro ex q h
    simp [mergeStaticField, cleanValue, pyTruthy, h]
  · intro ex
    simp [mergeStaticField, cleanValue, pyTruthy]

theorem claim4_witness :
    mergeStaticField (some (.s "MAERSK")) (some (.s "MAERSK LINE@@")) =
      some (.s (stripAtWs "MAERSK LINE@@"))
    ∧ stripAtWs "MAERSK LINE@@" = "MAERSK LINE"
    ∧ mergeStaticField (some (.s "MAERSK")) (some (.s "@@@")) = some (.s "MAERSK") :=
  ⟨claim4_theorem.2.1 (some (.s "MAERSK")) "MAERSK LINE@@" (by decide), by decide,
   claim4_theorem.2.2.1 (some (.s "MAERSK")) "@@@" (by decide)⟩

theorem parseNmeaCore_none_of_short (parts : List String)
    (h : parts.length < 6) : parseNmeaCore parts = none := by
  rcases parts with _ | ⟨a, _ | ⟨b, _ | ⟨c, _ | ⟨d, _ | ⟨e, _ | ⟨f, r⟩⟩⟩⟩⟩⟩
  · rfl
  · rfl
  · rfl
  · rfl
  · rfl
  · rfl
  · simp at h
    omega

/-- Claim C5 as stated is false: the parser performs no lower-bound check on
the parsed integers, so a line with totalFragments field "0" parses
successfully to a record with totalFragments = 0, which is not an integer
greater than or equal to 1. -/
theorem claim5_counterexample :
    parse_nmea_fields "!AIVDM,0,0,3,A,x" =
      some { total_fragments := 0, fragment_number := 0
             message_id := some "3", channel := "A" }
    ∧ ¬(1 ≤ (0 : Int)) := by decide

/-- Claim C5 amended: parseFragmentFields returns absent exactly when the line
has fewer than 6 comma-separated fields or when the totalFragments /
fragmentIndex fields fail integer parsing, and (being a total function) it
never raises; every returned record carries the parsed integers — with no
lower-bound check, so values below 1 are possible — messageId absent iff
field 3 is the empty string, and channel equal to field 4; in particular
"!AIVDM,2,1,3,A,xxx,0*1B" parses to {2, 1, "3", "A"} and "!AIVDM,bad" to
absent. -/
theorem claim5_theorem :
    (∀ line : String, ((splitComma line.toList).map String.mk).length < 6 →
      parse_nmea_fields line = none)
  ∧ (∀ (line p0 p1 p2 p3 p4 p5 : String) (r : List String),
      (splitComma line.toList).map String.mk = p0 :: p1 :: p2 :: p3 :: p4 :: p5 :: r →
      (parse_nmea_fields line = none ↔ (pyInt p1 = none ∨ pyInt p2 = none)))
  ∧ (∀ (line p0 p1 p2 p3 p4 p5 : String) (r : List String) (t n : Int),
      (splitComma line.toList).map String.mk = p0 :: p1 :: p2 :: p3 :: p4 :: p5 :: r →
      pyInt p1 = some t → pyInt p2 = some n →
      parse_nmea_fields line =
        some { total_fragments := t, fragment_number := n
               message_id := if p3 = "" then none else some p3
               channel := p4 })
  ∧ parse_nmea_fields "!AIVDM,2,1,3,A,xxx,0*1B" =
      some { total_fragments := 2, fragment_number := 1
             message_id := some "3", channel := "A" }
  ∧ parse_nmea_fields "!AIVDM,bad" = none := by
  refine ⟨?_, ?_, ?_, by decide, by decide⟩
  · intro line h
    exact parseNmeaCore_none_of_short _ h
  · intro line p0 p1 p2 p3 p4 p5 r h
    unfold parse_nmea_fields
    rw [h]
    unfold parseNmeaCore
    dsimp only
    rcases h1 : pyInt p1 with _ | t <;> rcases h2 : pyInt p2 with _ | n <;> simp
  · intro line p0 p1 p2 p3 p4 p5 r t n h h1 h2
    unfold parse_nmea_fields
    rw [h]
    unfold parseNmeaCore
    dsimp only
    rw [h1, h2]

theorem claim5_witness :
    parse_nmea_fields "!AIVDM,2,1,3,A,xxx,0*1B" =
      some { total_fragments := 2, fragment_number := 1
             message_id := if "3" = "" then none else some "3"
             channel := "A" } :=
  claim5_theorem.2.2.1 "!AIVDM,2,1,3,A,xxx,0*1B" "!AIVDM" "2" "1" "3" "A" "xxx"
    ["0*1B"] 2 1 (by decide) (by decide) (by decide)

/-- The pending entry that `add_fragment` stores for its key: the existing
entry (or a fresh one) with the new fragment inserted. -/
def new_entry (buf : Buffer) (line : String) (total f : Int) (mid : Option String)
    (ch : String) (now : Int) : Pending :=
  let entry0 := (alookup (buffer_key mid ch total) buf).getD
    { fragments := [], total := total, timestamp := now }
  { entry0 with fragments := ainsert f line entry0.fragments }

theorem add_fragment_spec (buf : Buffer) (line : String) (total f : Int)
    (mid : Option String) (ch : String) (now : Int) :
    add_fragment buf line total f mid ch now =
      (ainsert (buffer_key mid ch total) (new_entry buf line total f mid ch now) buf, none)
    ∨ (((new_entry buf line total f mid ch now).fragments.length : Int) = total ∧
        ∃ s, build_sorted (new_entry buf line total f mid ch now).fragments 1 total.toNat = some s ∧
          add_fragment buf line total f mid ch now =
            (aerase (buffer_key mid ch total)
              (ainsert (buffer_key mid ch total) (new_entry buf line total f mid ch now) buf),
             some s)) := by
  unfold add_fragment new_entry
  dsimp only
  by_cases hc : (((ainsert f line (((alookup (buffer_key mid ch total) buf).getD
      { fragments := [], total := total, timestamp := now }).fragments)).length : Int) = total)
  · rcases hb : build_sorted (ainsert f line (((alookup (buffer_key mid ch total) buf).getD
        { fragments := [], total := total, timestamp := now }).fragments)) 1 total.toNat with _ | s
    · left
      rw [if_pos hc]
    · right
      exact ⟨hc, s, rfl, by rw [if_pos hc]⟩
  · left
    rw [if_neg hc]

/-- Claim C10: addFragment removes a key only on the call where it returns a
complete list — whenever it returns absent, the pending entry (including the
fragment just inserted) is still in the buffer; the guarded branch (stored
count equals this call's totalFragments but an index in 1..totalFragments is
missing) is reachable and keeps the entry; and the completion check uses the
totalFragments argument of the current call, not the stored totalExpected. -/
theorem claim10_theorem :
    (∀ (buf : Buffer) (line : String) (total f : Int) (mid : Option String)
        (ch : String) (now : Int),
      (add_fragment buf line total f mid ch now).2 = none →
      ∃ e : Pending,
        alookup (buffer_key mid ch total) (add_fragment buf line total f mid ch now).1 = some e
        ∧ alookup f e.fragments = some line)
  ∧ ((add_fragment (add_fragment [] "l1" 2 1 (some "3") "A" 0).1
        "l2" 2 3 (some "3") "A" 0).2 = none
     ∧ alookup "3_A" (add_fragment (add_fragment [] "l1" 2 1 (some "3") "A" 0).1
          "l2" 2 3 (some "3") "A" 0).1 =
        some { fragments := [(1, "l1"), (3, "l2")], total := 2, timestamp := 0 }
     ∧ (([(1, "l1"), (3, "l2")] : List (Int × String)).length : Int) = 2)
  ∧ (add_fragment
        [("3_A", { fragments := [(1, "a"), (2, "b"), (3, "c"), (4, "d")]
                   total := 2, timestamp := 0 })]
        "e" 5 5 (some "3") "A" 1).2 = some ["a", "b", "c", "d", "e"] := by
  refine ⟨?_, by decide, by decide⟩
  intro buf line total f mid ch now h
  rcases add_fragment_spec buf line total f mid ch now with heq | ⟨hc, s, hb, heq⟩
  · rw [heq]
    refine ⟨new_entry buf line total f mid ch now, alookup_ainsert_self, ?_⟩
    show alookup f (new_entry buf line total f mid ch now).fragments = some line
    unfold new_entry
    exact alookup_ainsert_self
  · rw [heq] at h
    simp at h

theorem claim10_witness :
    ∃ e : Pending,
      alookup "3_A" (add_fragment [] "x" 2 1 (some "3") "A" 0).1 = some e
      ∧ alookup 1 e.fragments = some "x" :=
  claim10_theorem.1 [] "x" 2 1 (some "3") "A" 0 (by decide)

/-- Claim C9: evictStale removes exactly the pending entries whose age
strictly exceeds maxAgeSeconds, and an evicted multipart can never later
complete from its old fragments — a fragment for that key arriving when the
key is absent creates a new pending entry containing only the new fragment. -/
theorem claim9_theorem :
    (∀ (buf : Buffer) (now max_age : Int) (k : String) (p : Pending),
      (k, p) ∈ cleanup_old_fragments buf now max_age ↔
        ((k, p) ∈ buf ∧ ¬(now - p.timestamp > max_age)))
  ∧ (∀ (buf : Buffer) (line : String) (total f : Int) (mid : Option String)
        (ch : String) (now : Int),
      alookup (buffer_key mid ch total) buf = none → total ≠ 1 →
      alookup (buffer_key mid ch total) (add_fragment buf line total f mid ch now).1 =
        some { fragments := [(f, line)], total := total, timestamp := now }
      ∧ (add_fragment buf line total f mid ch now).2 = none) := by
  constructor
  · intro buf now max_age k p
    simp [cleanup_old_fragments, List.mem_filter]
  · intro buf line total f mid ch now hlook hne
    have hent : new_entry buf line total f mid ch now =
        { fragments := [(f, line)], total := total, timestamp := now } := by
      unfold new_entry
      rw [hlook]
      rfl
    rcases add_fragment_spec buf line total f mid ch now with heq | ⟨hc, s, hb, heq⟩
    · rw [heq, hent]
      exact ⟨alookup_ainsert_self, rfl⟩
    · exfalso
      rw [hent] at hc
      simp at hc
      exact hne hc.symm

theorem claim9_witness :
    (("k", ({ fragments := [], total := 2, timestamp := 0 } : Pending)) ∈
        cleanup_old_fragments [("k", { fragments := [], total := 2, timestamp := 0 })] 61 60 ↔
      (("k", ({ fragments := [], total := 2, timestamp := 0 } : Pending)) ∈
        ([("k", { fragments := [], total := 2, timestamp := 0 })] : Buffer)
       ∧ ¬((61 : Int) - 0 > 60)))
    ∧ (alookup "7_B" (add_fragment [] "x" 2 2 (some "7") "B" 5).1 =
        some { fragments := [(2, "x")], total := 2, timestamp := 5 }
       ∧ (add_fragment [] "x" 2 2 (some "7") "B" 5).2 = none) :=
  ⟨claim9_theorem.1 [("k", { fragments := [], total := 2, timestamp := 0 })] 61 60 "k"
      { fragments := [], total := 2, timestamp := 0 },
   claim9_theorem.2 [] "x" 2 2 (some "7") "B" 5 rfl (by decide)⟩

theorem trigger_automatic_cleanup_message_count (cfg : Config) (st : IngestState)
    (now : Int) : (trigger_automatic_cleanup cfg st now).message_count = st.message_count := by
  unfold trigger_automatic_cleanup
  dsimp only
  split
  · split <;> split <;> rfl
  · rfl

theorem trigger_automatic_cleanup_buffer (cfg : Config) (st : IngestState)
    (now : Int) : (trigger_automatic_cleanup cfg st now).buffer = st.buffer := by
  unfold trigger_automatic_cleanup
  dsimp only
  split
  · split <;> split <;> rfl
  · rfl

theorem decode_and_process_message_count (cfg : Config) (ok : List String → Bool)
    (st : IngestState) (lines : List String) (now : Int) :
    (decode_and_process cfg ok st lines now).message_count = st.message_count := by
  unfold decode_and_process
  split
  · exact trigger_automatic_cleanup_message_count cfg st now
  · rfl

theorem update_message_count_count (cfg : Config) (st : IngestState) (now : Int) :
    (update_message_count cfg st now).message_count = st.message_count + 1 := by
  unfold update_message_count
  dsimp only
  split <;> rfl

/-- Claim C3 as stated is false: "hello" is a non-blank line, but feeding it
to the pipeline leaves the throughput counter unchanged because the line is
dropped as non-AIS before the counter update is reached. -/
theorem claim3_counterexample :
    pyStripWs "hello" ≠ ""
    ∧ ({} : IngestState).message_count = 0
    ∧ (process_ais_line {} (fun _ => true) {} "hello" 0).message_count = 0 := by decide

/-- Claim C3 amended: the throughput counter is incremented exactly once for
every line that passes the AIS-sentence check and whose NMEA fields parse
(whether the line is then buffered as an incomplete fragment or fully
decoded and processed); a line dropped as non-AIS or malformed leaves the
whole service state, the counter included, unchanged. -/
theorem claim3_theorem (cfg : Config) (ok : List String → Bool) (st : IngestState)
    (line : String) (now : Int) :
    ((is_ais_message (pyStripWs line) = true ∧
        (∃ f, parse_nmea_fields (pyStripWs line) = some f)) →
      (process_ais_line cfg ok st line now).message_count = st.message_count + 1)
  ∧ (is_ais_message (pyStripWs line) = false →
      process_ais_line cfg ok st line now = st)
  ∧ (parse_nmea_fields (pyStripWs line) = none →
      process_ais_line cfg ok st line now = st) := by
  refine ⟨?_, ?_, ?_⟩
  · rintro ⟨hais, f, hf⟩
    unfold process_ais_line
    rw [if_pos hais, hf]
    rw [update_message_count_count]
    have hst1 : ∀ st1 : IngestState, st1.message_count = st.message_count →
        st1.message_count + 1 = st.message_count + 1 := by
      intro st1 h
      rw [h]
    by_cases h1 : f.total_fragments = 1
    · rw [if_pos h1]
      exact hst1 _ (decode_and_process_message_count cfg ok st [pyStripWs line] now)
    · rw [if_neg h1]
      dsimp only
      rcases hstep : (add_fragment st.buffer (pyStripWs line) f.total_fragments
          f.fragment_number f.message_id f.channel now).2 with _ | fs
      · rfl
      · by_cases hfs : fs = []
        · subst hfs
          simp
        · dsimp only
          rw [if_pos hfs]
          exact hst1 _ (decode_and_process_message_count cfg ok _ fs now)
  · intro hais
    unfold process_ais_line
    simp [hais]
  · intro hf
    unfold process_ais_line
    by_cases hais : is_ais_message (pyStripWs line) <;> simp [hais, hf]

theorem claim3_witness :
    (process_ais_line {} (fun _ => true) {} "!AIVDM,1,1,,A,p,0*00" 0).message_count =
      ({} : IngestState).message_count + 1 :=
  (claim3_theorem {} (fun _ => true) {} "!AIVDM,1,1,,A,p,0*00" 0).1
    ⟨by decide,
     ⟨{ total_fragments := 1, fragment_number := 1, message_id := none, channel := "A" },
      by decide⟩⟩

/-- The service state of the C6 counterexample: 9999 lines counted, both
Store sweeps performed recently (time 0). -/
def stClaim6 : IngestState :=
  { message_count := 9999, last_age_cleanup_time := some 0
    last_duplicate_cleanup_time := some 0, total_age_cleanups := 5
    total_duplicate_cleanups := 1 }

/-- Claim C6 as stated is false: processing the 10000th counted line (10 × N
for the default N = 1000) does not trigger a Store-layer retention sweep —
the sweep counters are unchanged — because the Store sweeps are time-based,
not message-count-based. -/
theorem claim6_counterexample :
    (process_ais_line {} (fun _ => true) stClaim6 "!AIVDM,2,1,3,A,xxx,0*1B" 100).message_count
      = 10000
    ∧ (process_ais_line {} (fun _ => true) stClaim6
        "!AIVDM,2,1,3,A,xxx,0*1B" 100).total_age_cleanups = stClaim6.total_age_cleanups
    ∧ (process_ais_line {} (fun _ => true) stClaim6
        "!AIVDM,2,1,3,A,xxx,0*1B" 100).total_duplicate_cleanups =
        stClaim6.total_duplicate_cleanups := by decide

/-- Claim C6 amended: the service counts processed lines and, whenever the
count reaches a multiple of the configured interval (default N = 1000),
triggers FragmentReassemblyBuffer eviction; the Store-layer retention sweep
is not tied to any 10×N line count — the counter update never performs a
Store sweep, and the sweep trigger (run after each successfully decoded
message) fires exactly when the configured time interval has elapsed,
independently of the message count. -/
theorem claim6_theorem (cfg : Config) (st : IngestState) (now : Int) :
    (update_message_count cfg st now).message_count = st.message_count + 1
  ∧ ((st.message_count + 1) % cfg.cleanup_interval_messages = 0 →
      (update_message_count cfg st now).buffer = cleanup_old_fragments st.buffer now)
  ∧ ((st.message_count + 1) % cfg.cleanup_interval_messages ≠ 0 →
      (update_message_count cfg st now).buffer = st.buffer)
  ∧ (update_message_count cfg st now).total_age_cleanups = st.total_age_cleanups
  ∧ (update_message_count cfg st now).total_duplicate_cleanups = st.total_duplicate_cleanups
  ∧ (trigger_automatic_cleanup cfg st now).total_age_cleanups =
      st.total_age_cleanups +
        (if cfg.auto_cleanup_enabled = true ∧
            cleanup_due st.last_age_cleanup_time now cfg.age_cleanup_interval_hours = true
         then 1 else 0)
  ∧ (trigger_automatic_cleanup cfg st now).message_count = st.message_count := by
  refine ⟨update_message_count_count cfg st now, ?_, ?_, ?_, ?_, ?_,
    trigger_automatic_cleanup_message_count cfg st now⟩
  · intro h
    unfold update_message_count
    dsimp only
    rw [if_pos h]
  · intro h
    unfold update_message_count
    dsimp only
    rw [if_neg h]
  · unfold update_message_count
    dsimp only
    split <;> rfl
  · unfold update_message_count
    dsimp only
    split <;> rfl
  · unfold trigger_automatic_cleanup
    dsimp only
    by_cases he : cfg.auto_cleanup_enabled
    · rw [if_pos he]
      by_cases hd : cleanup_due st.last_age_cleanup_time now cfg.age_cleanup_interval_hours = true
      · rw [if_pos hd]
        split <;> simp [he, hd]
      · rw [if_neg hd]
        split <;> simp [he, hd]
    · rw [if_neg he]
      simp [he]

theorem claim6_witness :
    (update_message_count { cleanup_interval_messages := 1 } {} 0).buffer =
      cleanup_old_fragments ({} : IngestState).buffer 0 :=
  (claim6_theorem { cleanup_interval_messages := 1 } {} 0).2.1 (by decide)

theorem add_fragment_buffer_inv (buf : Buffer)
    (h1 : (buf.map Prod.fst).Nodup)
    (h2 : ∀ kv ∈ buf, (kv.2.fragments.map Prod.fst).Nodup)
    (line : String) (total f : Int) (mid : Option String) (ch : String) (now : Int) :
    (((add_fragment buf line total f mid ch now).1.map Prod.fst).Nodup)
    ∧ ∀ kv ∈ (add_fragment buf line total f mid ch now).1,
        (kv.2.fragments.map Prod.fst).Nodup := by
  have hbase : ((((alookup (buffer_key mid ch total) buf).getD
      { fragments := [], total := total, timestamp := now }).fragments).map Prod.fst).Nodup := by
    rcases hlk : alookup (buffer_key mid ch total) buf with _ | e
    · simp
    · exact h2 (buffer_key mid ch total, e) (alookup_some_mem hlk)
  have hent : (((new_entry buf line total f mid ch now).fragments).map Prod.fst).Nodup := by
    unfold new_entry
    exact keys_nodup_ainsert hbase
  have hins1 : (((ainsert (buffer_key mid ch total)
      (new_entry buf line total f mid ch now) buf).map Prod.fst).Nodup) :=
    keys_nodup_ainsert h1
  have hins2 : ∀ kv ∈ ainsert (buffer_key mid ch total)
      (new_entry buf line total f mid ch now) buf,
      (kv.2.fragments.map Prod.fst).Nodup := by
    intro kv hkv
    rcases mem_ainsert hkv with h | h
    · rw [h]
      exact hent
    · exact h2 kv h
  rcases add_fragment_spec buf line total f mid ch now with heq | ⟨_, s, _, heq⟩
  · rw [heq]
    exact ⟨hins1, hins2⟩
  · rw [heq]
    constructor
    · exact List.Nodup.sublist (List.Sublist.map Prod.fst (aerase_sublist _ _)) hins1
    · intro kv hkv
      exact hins2 kv ((aerase_sublist _ _).subset hkv)

theorem runOps_inv_aux (ops : List BufOp) : ∀ buf : Buffer,
    ((buf.map Prod.fst).Nodup ∧ ∀ kv ∈ buf, (kv.2.fragments.map Prod.fst).Nodup) →
    (((ops.foldl applyOp buf).map Prod.fst).Nodup ∧
      ∀ kv ∈ ops.foldl applyOp buf, (kv.2.fragments.map Prod.fst).Nodup) := by
  induction ops with
  | nil => exact fun buf h => h
  | cons op rest ih =>
    intro buf h
    rw [List.foldl_cons]
    apply ih
    rcases op with ⟨line, t, n, mid, ch, now⟩ | ⟨now, ma⟩
    · exact add_fragment_buffer_inv buf h.1 h.2 line t n mid ch now
    · simp only [applyOp, cleanup_old_fragments]
      refine ⟨?_, ?_⟩
      · exact List.Nodup.sublist (List.Sublist.map Prod.fst (List.filter_sublist _)) h.1
      · intro kv hkv
        exact h.2 kv ((List.filter_sublist _).subset hkv)

/-- Claim C2 amended: in every reachable state of the buffer (after any
sequence of addFragment and evictStale calls) there is at most one pending
entry per key and each entry's fragments map has distinct indices; the bound
"at most totalExpected entries" does not hold in general (see the
counterexample) and is dropped. -/
theorem claim2_theorem (ops : List BufOp) :
    ((runOps ops).map Prod.fst).Nodup
    ∧ ∀ kv ∈ runOps ops, (kv.2.fragments.map Prod.fst).Nodup :=
  runOps_inv_aux ops [] ⟨by simp, by simp⟩

/-- Claim C2 as stated is false: three addFragment calls sharing messageId
"3" and channel "A" but passing a larger totalFragments on the later calls
leave a pending entry whose recorded totalExpected is 2 while its fragments
map holds 3 entries. -/
theorem claim2_counterexample :
    ∃ p : Pending,
      alookup "3_A" (runOps [.add "l1" 2 1 (some "3") "A" 0,
                             .add "l2" 5 2 (some "3") "A" 0,
                             .add "l3" 5 3 (some "3") "A" 0]) = some p
      ∧ p.total.toNat < p.fragments.length :=
  ⟨{ fragments := [(1, "l1"), (2, "l2"), (3, "l3")], total := 2, timestamp := 0 },
   by decide⟩

theorem claim2_witness :
    (([((1 : Int), "x")] : List (Int × String)).map Prod.fst).Nodup :=
  (claim2_theorem [.add "x" 2 1 (some "7") "B" 0]).2
    ("7_B", { fragments := [((1 : Int), "x")], total := 2, timestamp := 0 })
    (by decide)

theorem add_fragment_incomplete (buf : Buffer) (line : String) (total f : Int)
    (mid : Option String) (ch : String) (now : Int)
    (hc : ¬(((new_entry buf line total f mid ch now).fragments.length : Int) = total)) :
    add_fragment buf line total f mid ch now =
      (ainsert (buffer_key mid ch total) (new_entry buf line total f mid ch now) buf, none) := by
  unfold add_fragment
  unfold new_entry at hc
  dsimp only at hc ⊢
  rw [if_neg hc]
  rfl

theorem add_fragment_complete (buf : Buffer) (line : String) (total f : Int)
    (mid : Option String) (ch : String) (now : Int) (s : List String)
    (hc : (((new_entry buf line total f mid ch now).fragments.length : Int) = total))
    (hb : build_sorted (new_entry buf line total f mid ch now).fragments 1 total.toNat = some s) :
    add_fragment buf line total f mid ch now =
      (aerase (buffer_key mid ch total)
        (ainsert (buffer_key mid ch total) (new_entry buf line total f mid ch now) buf),
       some s) := by
  unfold add_fragment
  unfold new_entry at hc hb
  dsimp only at hc hb ⊢
  rw [if_pos hc, hb]
  rfl

/-- The fragment-dict entry contributed by fragment index `i` with line
`l i`. -/
def indexEntry (l : Nat → String) (i : Nat) : Int × String := ((i : Int), l i)

theorem alookup_map_index {l : Nat → String} {dl : List Nat} {j : Nat}
    (hnd : dl.Nodup) (hj : j ∈ dl) :
    alookup (j : Int) (dl.map (indexEntry l)) = some (l j) := by
  induction dl with
  | nil => cases hj
  | cons d tl ih =>
    rw [List.nodup_cons] at hnd
    by_cases hdj : d = j
    · subst hdj
      simp [alookup]
    · have hj' : j ∈ tl := by
        rcases List.mem_cons.mp hj with h | h
        · exact absurd h.symm hdj
        · exact h
      have hcast : ¬((d : Int) = (j : Int)) := by
        intro hc
        exact hdj (Int.ofNat_inj.mp hc)
      simp only [List.map_cons, alookup, if_neg hcast]
      exact ih hnd.2 hj'

theorem alookup_map_index_none {l : Nat → String} {dl : List Nat} {j : Nat}
    (hj : ¬j ∈ dl) :
    alookup (j : Int) (dl.map (indexEntry l)) = none := by
  rw [alookup_eq_none_iff]
  intro p hp
  rcases List.mem_map.mp hp with ⟨i, hi, rfl⟩
  intro hc
  exact hj (Int.ofNat_inj.mp hc ▸ hi)

theorem ainsert_map_index {l : Nat → String} {dl : List Nat} {i : Nat}
    (hi : ¬i ∈ dl) :
    ainsert (i : Int) (l i) (dl.map (indexEntry l)) =
      (dl ++ [i]).map (indexEntry l) := by
  have hne : ∀ p ∈ dl.map (indexEntry l), p.1 ≠ (i : Int) := by
    intro p hp
    rcases List.mem_map.mp hp with ⟨j, hj, rfl⟩
    intro hc
    exact hi (Int.ofNat_inj.mp hc ▸ hj)
  rw [ainsert_of_forall_ne hne, List.map_append]
  rfl

theorem build_sorted_complete {l : Nat → String} {frags : List (Int × String)} :
    ∀ (k s : Nat), (∀ j ∈ List.range' s k, alookup (j : Int) frags = some (l j)) →
    build_sorted frags (s : Int) k = some ((List.range' s k).map l) := by
  intro k
  induction k with
  | zero => intro s _; simp [build_sorted]
  | succ k ih =>
    intro s hall
    rw [List.range'_succ s k 1]
    have hs : alookup (s : Int) frags = some (l s) := by
      apply hall
      rw [List.range'_succ s k 1]
      exact List.mem_cons_self _ _
    have hrec : build_sorted frags ((s + 1 : Nat) : Int) k =
        some ((List.range' (s + 1) k).map l) := by
      apply ih
      intro j hj
      apply hall
      rw [List.range'_succ s k 1]
      exact List.mem_cons_of_mem _ hj
    unfold build_sorted
    rw [hs]
    have hcast : ((s : Int) + 1) = ((s + 1 : Nat) : Int) := by push_cast; ring
    rw [hcast, hrec]
    simp

theorem feed_all_aux (l : Nat → String) (N : Nat) (m ch : String) (now : Int)
    (hm : ¬m = "") :
    ∀ (rest : List Nat), ∀ (done : List Nat) (buf0 : Buffer) (ts : Int),
    (done ++ rest).Nodup →
    (done ++ rest).Perm (List.range' 1 N) →
    rest ≠ [] →
    alookup (m ++ "_" ++ ch) buf0 = none →
    feed_all l N (some m) ch now
      (buf0 ++ [(m ++ "_" ++ ch,
        { fragments := done.map (indexEntry l), total := (N : Int), timestamp := ts })])
      rest
    = (buf0, List.replicate (rest.length - 1) none ++ [some ((List.range' 1 N).map l)]) := by
  intro rest
  induction rest with
  | nil =>
    intro done buf0 ts _ _ hne _
    exact absurd rfl hne
  | cons i rest' ih =>
    intro done buf0 ts hnd hperm _ hbuf0
    have hkey : buffer_key (some m) ch (N : Int) = m ++ "_" ++ ch := by
      simp [buffer_key, hm]
    have hforall : ∀ p ∈ buf0, p.1 ≠ m ++ "_" ++ ch := alookup_eq_none_iff.mp hbuf0
    have hlkB : alookup (m ++ "_" ++ ch)
        (buf0 ++ [(m ++ "_" ++ ch,
          ({ fragments := done.map (indexEntry l), total := (N : Int),
             timestamp := ts } : Pending))]) =
        some { fragments := done.map (indexEntry l), total := (N : Int), timestamp := ts } := by
      rw [alookup_append, hbuf0]
      simp [alookup]
    have hi_done : ¬i ∈ done := by
      rw [List.nodup_append] at hnd
      intro hmem
      exact hnd.2.2 hmem (List.mem_cons_self _ _)
    have hnd2 : ((done ++ [i]) ++ rest').Nodup := by
      rw [List.append_assoc]
      simpa using hnd
    have hperm2 : ((done ++ [i]) ++ rest').Perm (List.range' 1 N) := by
      rw [List.append_assoc]
      simpa using hperm
    have hlen : done.length + (rest'.length + 1) = N := by
      have h := hperm.length_eq
      simp at h
      omega
    have hentry : new_entry
        (buf0 ++ [(m ++ "_" ++ ch,
          { fragments := done.map (indexEntry l), total := (N : Int), timestamp := ts })])
        (l i) (N : Int) (i : Int) (some m) ch now =
        { fragments := (done ++ [i]).map (indexEntry l), total := (N : Int),
          timestamp := ts } := by
      unfold new_entry
      rw [hkey, hlkB]
      dsimp only [Option.getD]
      rw [ainsert_map_index hi_done]
    rcases Decidable.em (rest' = []) with hre | hre
    · subst hre
      have hlenN : done.length + 1 = N := by simpa using hlen
      have hperm3 : (done ++ [i]).Perm (List.range' 1 N) := by simpa using hperm2
      have hnd3 : (done ++ [i]).Nodup := by simpa using hnd2
      have hbs : build_sorted ((done ++ [i]).map (indexEntry l)) ((1 : Nat) : Int) N =
          some ((List.range' 1 N).map l) := by
        apply build_sorted_complete
        intro j hj
        exact alookup_map_index hnd3 (hperm3.mem_iff.mpr hj)
      have hstep := add_fragment_complete
        (buf0 ++ [(m ++ "_" ++ ch,
          { fragments := done.map (indexEntry l), total := (N : Int), timestamp := ts })])
        (l i) (N : Int) (i : Int) (some m) ch now ((List.range' 1 N).map l)
        (by rw [hentry]; simp [hlenN])
        (by rw [hentry, Int.toNat_natCast]; exact hbs)
      rw [hkey, hentry] at hstep
      rw [ainsert_append_last hforall, aerase_append_last hforall] at hstep
      simp only [feed_all]
      rw [hstep]
      simp
    · have hlt : done.length + 1 ≠ N := by
        have hge : 1 ≤ rest'.length := by
          cases rest' with
          | nil => exact absurd rfl hre
          | cons a b => simp
        omega
      have hcond : ¬(((new_entry
          (buf0 ++ [(m ++ "_" ++ ch,
            { fragments := done.map (indexEntry l), total := (N : Int), timestamp := ts })])
          (l i) (N : Int) (i : Int) (some m) ch now).fragments.length : Int) = (N : Int)) := by
        rw [hentry]
        simp
        omega
      have hstep := add_fragment_incomplete
        (buf0 ++ [(m ++ "_" ++ ch,
          { fragments := done.map (indexEntry l), total := (N : Int), timestamp := ts })])
        (l i) (N : Int) (i : Int) (some m) ch now hcond
      rw [hkey, hentry] at hstep
      rw [ainsert_append_last hforall] at hstep
      simp only [feed_all]
      rw [hstep]
      have hih := ih (done ++ [i]) buf0 ts hnd2 hperm2 hre hbuf0
      dsimp only
      rw [hih]
      have hrl : rest'.length = (rest'.length - 1) + 1 := by
        cases rest' with
        | nil => exact absurd rfl hre
        | cons a b => simp
      have hlen2 : (i :: rest').length - 1 = rest'.length := by simp
      rw [hlen2, hrl, List.replicate_succ]
      simp

/-- Claim C8: for every N-part multipart sequence sharing one non-empty
messageId and channel, submitting its N distinct fragments (indices 1..N, in
any order) yields absent for the first N-1 calls and, on the call supplying
the last missing index, exactly one ordered list [line_1, ..., line_N]
ordered by fragment index, with no pending entry left for that key (the
buffer returns to its prior state, in which the key was absent). -/
theorem claim8_theorem (N : Nat) (l : Nat → String) (m ch : String) (now : Int)
    (buf0 : Buffer) (perm : List Nat)
    (hm : m ≠ "") (hN : 1 ≤ N) (hperm : perm.Perm (List.range' 1 N))
    (hbuf0 : alookup (m ++ "_" ++ ch) buf0 = none) :
    feed_all l N (some m) ch now buf0 perm =
      (buf0, List.replicate (N - 1) none ++ [some ((List.range' 1 N).map l)]) := by
  rcases perm with _ | ⟨i, rest⟩
  · exfalso
    have h := hperm.length_eq
    simp at h
    omega
  · have hkey : buffer_key (some m) ch (N : Int) = m ++ "_" ++ ch := by
      simp [buffer_key, hm]
    have hforall : ∀ p ∈ buf0, p.1 ≠ m ++ "_" ++ ch := alookup_eq_none_iff.mp hbuf0
    have hentry : new_entry buf0 (l i) (N : Int) (i : Int) (some m) ch now =
        { fragments := [i].map (indexEntry l), total := (N : Int), timestamp := now } := by
      unfold new_entry
      rw [hkey, hbuf0]
      dsimp only [Option.getD]
      rfl
    have hlen : 1 + rest.length = N := by
      have h := hperm.length_eq
      simp at h
      omega
    rcases Decidable.em (rest = []) with hre | hre
    · subst hre
      have hN1 : N = 1 := by
        simp at hlen
        omega
      subst hN1
      have hi : i = 1 := by
        have h1 : List.range' 1 1 = [1] := rfl
        rw [h1] at hperm
        have h2 := List.perm_singleton.mp hperm
        simpa using h2
      subst hi
      have hbs : build_sorted ([1].map (indexEntry l)) ((1 : Nat) : Int) 1 =
          some ((List.range' 1 1).map l) := by
        apply build_sorted_complete
        intro j hj
        have hj1 : j = 1 := by simpa [List.range'] using hj
        subst hj1
        simp [indexEntry, alookup]
      have hstep := add_fragment_complete buf0 (l 1) ((1 : Nat) : Int) ((1 : Nat) : Int)
        (some m) ch now ((List.range' 1 1).map l)
        (by rw [hentry]; simp)
        (by rw [hentry, Int.toNat_natCast]; exact hbs)
      rw [hkey, hentry] at hstep
      rw [ainsert_of_forall_ne hforall, aerase_append_last hforall] at hstep
      simp only [feed_all]
      rw [hstep]
      simp
    · have hge : 1 ≤ rest.length := by
        cases rest with
        | nil => exact absurd rfl hre
        | cons a b => simp
      have hcond : ¬(((new_entry buf0 (l i) (N : Int) (i : Int) (some m) ch
          now).fragments.length : Int) = (N : Int)) := by
        rw [hentry]
        simp
        omega
      have hstep := add_fragment_incomplete buf0 (l i) (N : Int) (i : Int) (some m) ch now hcond
      rw [hkey, hentry] at hstep
      rw [ainsert_of_forall_ne hforall] at hstep
      simp only [feed_all]
      rw [hstep]
      dsimp only
      have hnd : ([i] ++ rest).Nodup := by
        have h := (hperm.nodup_iff).mpr (List.nodup_range' 1 N)
        simpa using h
      have hperm1 : ([i] ++ rest).Perm (List.range' 1 N) := by simpa using hperm
      have hih := feed_all_aux l N m ch now hm rest [i] buf0 now hnd hperm1 hre hbuf0
      rw [hih]
      have hN2 : N - 1 = rest.length := by omega
      rw [hN2]
      have hrl : rest.length = (rest.length - 1) + 1 := by omega
      rw [hrl, List.replicate_succ]
      simp

theorem claim8_witness :
    feed_all (fun i => if i = 1 then "a" else "b") 2 (some "3") "A" 0 [] [2, 1] =
      ([], List.replicate (2 - 1) none ++
        [some ((List.range' 1 2).map (fun i => if i = 1 then "a" else "b"))]) :=
  claim8_theorem 2 (fun i => if i = 1 then "a" else "b") "3" "A" 0 [] [2, 1]
    (by decide) (by decide) (by decide) rfl
